import Mathlib

/-!
Verification development for the spacectl-web dynamic gRPC invocation engine
(Go sources under `server/internal/grpc`, `server/internal/handlers`,
`server/internal/constants`).

The Go code is shallowly embedded: Go maps become association lists over
`String` keys (Go map insertion = overwrite-or-append `upsert`); Go's
`interface{}` values that flow through the JSON/parameter layer become the
inductive `GoValue`; `float64` payloads are modelled as rationals (`Rat`),
with Go's `int64(float)` conversion modelled as truncation toward zero;
wall-clock instants are natural numbers counting nanoseconds, matching
`time.Duration` units.  The third-party gRPC reflection registry is modelled
at its interface boundary (`Registry`: an advertised-name list plus resolvable
schemas), and the third-party dynamic-message setter
(`dynamic.Message.TrySetFieldByName`) is modelled as accepting exactly values
of the field's native wire type.
-/

namespace SpacectlWeb

/-! ## Association-list helpers (model of Go `map[string]T`) -/

/-- Look up the value stored under key `k` (Go `m[k]`, comma-ok form). -/
def lookupKey (k : String) : List (String × α) → Option α
  | [] => none
  | (k', v) :: rest => if k' = k then some v else lookupKey k rest

/-- Insert-or-overwrite (Go `m[k] = v`). -/
def upsert (k : String) (v : α) : List (String × α) → List (String × α)
  | [] => [(k, v)]
  | (k', v') :: rest => if k' = k then (k, v) :: rest else (k', v') :: upsert k v rest

/-- Number of entries stored under key `k`. -/
def countKey (k : String) : List (String × α) → Nat
  | [] => 0
  | (k', _) :: rest => (if k' = k then 1 else 0) + countKey k rest

/-! ## Values (Go `interface{}` as it reaches the gRPC parameter layer) -/

/-- Dynamic values flowing through the request path.  Composite values
(JSON objects / arrays / nested messages) are represented atomically by an
identifying tag, since the engine passes them through unconverted. -/
inductive GoValue where
  | str : String → GoValue
  | intV : Int → GoValue
  | int32V : Int → GoValue
  | int64V : Int → GoValue
  | float32V : Rat → GoValue
  | float64V : Rat → GoValue
  | boolV : Bool → GoValue
  | nullV : GoValue
  | composite : Nat → GoValue
deriving DecidableEq, Repr

/-- Protobuf field kinds distinguished by `convertValue`'s switch
(`descriptorpb.FieldDescriptorProto_TYPE_*`); every kind the switch does not
name falls into `tother` (the `default` passthrough). -/
inductive FieldType where
  | tstring | tint32 | tint64 | tbool | tfloat | tdouble | tother
deriving DecidableEq, Repr

/-! ## Schema registry model (gRPC reflection, at its interface boundary) -/

/-- One declared input field of an operation
(`desc.FieldDescriptor`: name, default presence, repeatedness, kind). -/
structure FieldDesc where
  name : String
  hasDefault : Bool
  isRepeated : Bool
  ftype : FieldType
deriving DecidableEq, Repr

/-- One callable operation (`desc.MethodDescriptor`): its name, the declared
fields of its input message type, and that type's fully-qualified name. -/
structure MethodSchema where
  name : String
  inputFields : List FieldDesc
  inputTypeName : String
deriving DecidableEq, Repr

/-- One operation-group (`desc.ServiceDescriptor`). -/
structure ServiceSchema where
  fullName : String
  methods : List MethodSchema
deriving DecidableEq, Repr

/-- A backend's reflection registry: the names it advertises via
`ListServices`, and the schemas `ResolveService` can actually resolve
(an advertised name absent from `schemas` models a per-group resolution
failure, which discovery skips). -/
structure Registry where
  advertised : List String
  schemas : List ServiceSchema
deriving DecidableEq, Repr

/-- `refClient.ResolveService name`. -/
def resolveService (reg : Registry) (name : String) : Option ServiceSchema :=
  reg.schemas.find? (fun s => s.fullName = name)

/-- `serviceDesc.FindMethodByName verb`. -/
def findMethodByName (s : ServiceSchema) (verb : String) : Option MethodSchema :=
  s.methods.find? (fun m => m.name = verb)

/-! ## Discovery metadata (discovery.go data model) -/

/-- `MethodInfo`: verb name, required/optional parameter names, input type. -/
structure MethodInfo where
  name : String
  requiredParams : List String
  optionalParams : List String
  inputType : String
deriving DecidableEq, Repr

/-- `ResourceInfo`: resource name, verbs, the discovered full operation-group
identifier (`ServiceName`, documented in the source as "Full service name for
gRPC calls"), and per-verb metadata. -/
structure ResourceInfo where
  name : String
  verbs : List String
  serviceName : String
  methods : List (String × MethodInfo)
deriving DecidableEq, Repr

/-- `ServiceInfo`: backend name, resource map, last-refresh instant
(nanoseconds). -/
structure ServiceInfo where
  name : String
  resources : List (String × ResourceInfo)
  lastUpdate : Nat
deriving DecidableEq, Repr

/-! ## Naming-convention parsing (discovery.go: extractResourceName,
isCompatibleService) -/

/-- `isCompatibleService`: the static symmetric alias table. -/
def isCompatibleService (discoveredServiceName requestedServiceName : String) : Bool :=
  if requestedServiceName = "inventory_v2" ∧ discoveredServiceName = "inventory" then true
  else if requestedServiceName = "inventory" ∧ discoveredServiceName = "inventory_v2" then true
  else if requestedServiceName = "cost_analysis_v2" ∧ discoveredServiceName = "cost_analysis" then true
  else if requestedServiceName = "cost_analysis" ∧ discoveredServiceName = "cost_analysis_v2" then true
  else false

/-- `strings.Split s "."` over the character list (splitting on a single
dot; the empty string yields `[""]`, exactly as in Go). -/
def splitCharsOnDot : List Char → List (List Char)
  | [] => [[]]
  | c :: rest =>
    let r := splitCharsOnDot rest
    if c = '.' then [] :: r
    else
      match r with
      | [] => [[c]]
      | g :: gs => (c :: g) :: gs

/-- `strings.Split fullServiceName "."`. -/
def stringsSplitDot (s : String) : List String :=
  (splitCharsOnDot s.toList).map (fun cs => String.mk cs)

/-- `extractResourceName fullServiceName serviceName`: reserved full names
first, then the `spaceone.api.<service>.<version>.<resource>` convention
(at least 5 dot-separated segments; segment 2 must equal the requested
service name or be alias-compatible with it).  Returns `""` on no match. -/
def extractResourceName (fullServiceName serviceName : String) : String :=
  if fullServiceName = "grpc.health.v1.Health" then "Health"
  else if fullServiceName = "spaceone.api.core.v1.ServerInfo" then "ServerInfo"
  else
    match stringsSplitDot fullServiceName with
    | ns :: api :: svc :: _ver :: res :: _rest =>
      if ns = "spaceone" ∧ api = "api" then
        if svc = serviceName then res
        else if isCompatibleService svc serviceName then res
        else ""
      else ""
    | _ => ""

/-! ## Parameter classification (discovery.go: extractMethodInfo) -/

/-- The classification loop over the input message's declared fields:
a field with a default value or that is repeated goes to the optional list,
every other field to the required list (order preserved). -/
def classifyFields : List FieldDesc → List String × List String
  | [] => ([], [])
  | f :: rest =>
    let (req, opt) := classifyFields rest
    if f.hasDefault || f.isRepeated then (req, f.name :: opt)
    else (f.name :: req, opt)

/-- `extractMethodInfo`. -/
def extractMethodInfo (m : MethodSchema) : MethodInfo :=
  let (req, opt) := classifyFields m.inputFields
  { name := m.name
    requiredParams := req
    optionalParams := opt
    inputType := m.inputTypeName }

/-! ## Numeric string scanning (model of `fmt.Sscanf` with `%d` / `%f`) -/

/-- Machine-integer bounds for the `int32` / `int64` scan targets: `Sscanf`
reports an out-of-range error, which `convertValue` treats as a parse
failure. -/
def int32Min : Int := -2147483648

def int32Max : Int := 2147483647

def int64Min : Int := -9223372036854775808

def int64Max : Int := 9223372036854775807

def fitsInt32 (n : Int) : Bool := int32Min ≤ n ∧ n ≤ int32Max

def fitsInt64 (n : Int) : Bool := int64Min ≤ n ∧ n ≤ int64Max

/-- Digit-run value. -/
def digitsVal (ds : List Char) : Nat :=
  ds.foldl (fun acc c => acc * 10 + (c.toNat - 48)) 0

/-- Optional sign, returning the sign factor and the remaining input. -/
def scanSign : List Char → Int × List Char
  | '-' :: rest => (-1, rest)
  | '+' :: rest => (1, rest)
  | cs => (1, cs)

/-- `fmt.Sscanf s "%d"`: skip leading whitespace, optional sign, then a
nonempty digit run (further input is left unconsumed, which `Sscanf` does not
treat as an error). -/
def sscanfInt (s : String) : Option Int :=
  let cs := s.toList.dropWhile Char.isWhitespace
  let (sign, cs) := scanSign cs
  let ds := cs.takeWhile Char.isDigit
  if ds.isEmpty then none else some (sign * (digitsVal ds : Int))

/-- Scan an optional fractional part `.d*` returning (numerator, scale,
remaining input). -/
def scanFrac : List Char → Nat × Nat × List Char
  | '.' :: rest =>
    let ds := rest.takeWhile Char.isDigit
    (digitsVal ds, ds.length, rest.drop ds.length)
  | cs => (0, 0, cs)

/-- Scan an optional exponent part `[eE][+-]?d+`; a bare `e` with no digits is
a scan error (`none`). -/
def scanExp : List Char → Option (Int × List Char)
  | 'e' :: rest =>
    let (sign, rest') := scanSign rest
    let ds := rest'.takeWhile Char.isDigit
    if ds.isEmpty then none else some (sign * (digitsVal ds : Int), rest'.drop ds.length)
  | 'E' :: rest =>
    let (sign, rest') := scanSign rest
    let ds := rest'.takeWhile Char.isDigit
    if ds.isEmpty then none else some (sign * (digitsVal ds : Int), rest'.drop ds.length)
  | cs => some (0, cs)

/-- `fmt.Sscanf s "%f"`: decimal mantissa with optional fraction and exponent,
modelled exactly on rationals (float rounding is outside the model's scope).
At least one digit must appear in the integer or fractional part. -/
def sscanfFloat (s : String) : Option Rat :=
  let cs := s.toList.dropWhile Char.isWhitespace
  let (sign, cs) := scanSign cs
  let intDs := cs.takeWhile Char.isDigit
  let rest := cs.drop intDs.length
  let (fracNum, fracLen, rest') := scanFrac rest
  if intDs.isEmpty ∧ fracLen = 0 then none
  else
    match scanExp rest' with
    | none => none
    | some (e, _) =>
      let mantissa : Rat := (digitsVal intDs : Rat) + (fracNum : Rat) / ((10 : Rat) ^ fracLen)
      let scaled : Rat := if 0 ≤ e then mantissa * (10 : Rat) ^ e.toNat else mantissa / (10 : Rat) ^ (-e).toNat
      some ((sign : Rat) * scaled)

/-- Go's `int64(f)` conversion on a `float64`: truncation toward zero
(`Int` division in Lean truncates toward zero, and the denominator of a `Rat`
is positive). -/
def truncRat (q : Rat) : Int := q.num / (q.den : Int)

/-! ## Value coercion (service.go: convertValue) -/

/-- `convertValue value fieldDesc.GetType()`.  Mirrors the Go switch: every
branch that finds no applicable conversion falls through to returning the
value unchanged (the Go function's error result is never non-nil). -/
def convertValue (value : GoValue) (ft : FieldType) : GoValue :=
  match ft with
  | .tstring =>
    match value with
    | .str s => .str s
    | v => .str (goFormat v)
  | .tint32 =>
    match value with
    | .intV n => .intV n
    | .int32V n => .int32V n
    | .int64V n => .int64V n
    | .float64V q => .int64V (truncRat q)
    | .str s =>
      match sscanfInt s with
      | some n => if fitsInt32 n then .int32V n else .str s
      | none => .str s
    | v => v
  | .tint64 =>
    match value with
    | .intV n => .intV n
    | .int32V n => .int32V n
    | .int64V n => .int64V n
    | .float64V q => .int64V (truncRat q)
    | .str s =>
      match sscanfInt s with
      | some n => if fitsInt64 n then .int64V n else .str s
      | none => .str s
    | v => v
  | .tbool =>
    match value with
    | .boolV b => .boolV b
    | .str s => .boolV (s = "true" ∨ s = "1")
    | v => v
  | .tfloat =>
    match value with
    | .float32V q => .float32V q
    | .float64V q => .float64V q
    | .intV n => .float64V (n : Rat)
    | .str s =>
      match sscanfFloat s with
      | some q => .float64V q
      | none => .str s
    | v => v
  | .tdouble =>
    match value with
    | .float32V q => .float32V q
    | .float64V q => .float64V q
    | .intV n => .float64V (n : Rat)
    | .str s =>
      match sscanfFloat s with
      | some q => .float64V q
      | none => .str s
    | v => v
  | .tother => value
where
  /-- `fmt.Sprintf "%v"` on the value model.  Integer and boolean renderings
  match Go exactly; the rational stand-ins for floats and the atomic composite
  tag are rendered by the model's own printer, standing in for Go's float and
  composite formatting. -/
  goFormat : GoValue → String
  | .str s => s
  | .intV n => toString n
  | .int32V n => toString n
  | .int64V n => toString n
  | .float32V q => toString q
  | .float64V q => toString q
  | .boolV b => if b then "true" else "false"
  | .nullV => "<nil>"
  | .composite n => "composite#" ++ toString n

/-! ## Field assignment (service.go: setMessageField) and the parameter loop
(service.go: CallMethod lines 110–123) -/

/-- Model of the third-party `dynamic.Message.TrySetFieldByName`: fails when
the message type declares no field of that name, or when the value is not of
the field's native wire type; on success stores the value under the field
name. -/
def directSetOk (ft : FieldType) (v : GoValue) : Bool :=
  match ft, v with
  | .tstring, .str _ => true
  | .tint32, .int32V _ => true
  | .tint64, .int64V _ => true
  | .tbool, .boolV _ => true
  | .tfloat, .float32V _ => true
  | .tdouble, .float64V _ => true
  | .tother, .composite _ => true
  | _, _ => false

/-- A dynamic message under construction: field name → stored value. -/
def DynMessage := List (String × GoValue)

/-- `msg.TrySetFieldByName fieldName value` over the declared fields of the
message type. -/
def trySetFieldByName (fields : List FieldDesc) (msg : DynMessage)
    (fieldName : String) (value : GoValue) : Except String DynMessage :=
  match fields.find? (fun f => f.name = fieldName) with
  | none => .error ("unknown field " ++ fieldName)
  | some fd =>
    if directSetOk fd.ftype value then .ok (upsert fieldName value msg)
    else .error ("bad type for field " ++ fieldName)

/-- `setMessageField`: try the direct assignment; on failure look the field
up (absent → error), convert the value by the field's kind, and try the
assignment again with the converted value. -/
def setMessageField (fields : List FieldDesc) (msg : DynMessage)
    (fieldName : String) (value : GoValue) : Except String DynMessage :=
  match trySetFieldByName fields msg fieldName value with
  | .ok m => .ok m
  | .error _ =>
    match fields.find? (fun f => f.name = fieldName) with
    | none => .error ("field not found: " ++ fieldName)
    | some fd =>
      trySetFieldByName fields msg fieldName (convertValue value fd.ftype)

/-- The `CallMethod` parameter loop: each failing field is logged and
skipped, the loop continues with the remaining fields. -/
def applyParams (fields : List FieldDesc) (msg : DynMessage) :
    List (String × GoValue) → DynMessage
  | [] => msg
  | (k, v) :: rest =>
    match setMessageField fields msg k v with
    | .ok m => applyParams fields m rest
    | .error _ => applyParams fields msg rest

/-! ## Service discovery and the schema cache (discovery.go: discoverService,
GetServiceInfo, ClearCache) -/

/-- `discoverService`: enumerate the advertised operation-groups, keep those
whose name yields a resource under the requested service, skip groups whose
schema fails to resolve, and collect verbs and per-verb metadata.  The
`ResourceInfo` stores the discovered full operation-group name
(`ServiceName: service`). -/
def discoverService (reg : Registry) (serviceName : String) (now : Nat) : ServiceInfo :=
  let resourceMap := reg.advertised.foldl
    (fun acc svcFullName =>
      let resourceName := extractResourceName svcFullName serviceName
      if resourceName = "" then acc
      else
        match resolveService reg svcFullName with
        | none => acc
        | some sd =>
          let verbs := sd.methods.map (fun m => m.name)
          let methodDetails := sd.methods.foldl
            (fun md m => upsert m.name (extractMethodInfo m) md) []
          upsert resourceName
            { name := resourceName
              verbs := verbs
              serviceName := svcFullName
              methods := methodDetails } acc)
    []
  { name := serviceName, resources := resourceMap, lastUpdate := now }

/-- The schema cache: backend name → `ServiceInfo`. -/
structure DiscoveryState where
  cache : List (String × ServiceInfo)
deriving DecidableEq, Repr

/-- `cacheTTL`: `5 * time.Minute` in nanoseconds. -/
def cacheTTL : Nat := 5 * 60 * 1000000000

/-- Outcome of `GetServiceInfo`: the returned value or error, the cache state
afterwards, and whether a registry discovery pass (connection + `ListServices`
enumeration) was attempted. -/
structure DescribeResult where
  result : Except String ServiceInfo
  state : DiscoveryState
  queried : Bool
deriving Repr

/-- A discovery environment: for each backend name, the reachable registry,
or `none` when the backend is unconfigured or the registry query fails
(`getClient` / `ListServices` errors). -/
def DiscoveryEnv := String → Option Registry

/-- The rediscovery arm of `GetServiceInfo`: run `discoverService` and
replace the cache entry wholesale; on failure leave the cache unchanged. -/
def discoverAndStore (env : DiscoveryEnv) (st : DiscoveryState)
    (serviceName : String) (now : Nat) : DescribeResult :=
  match env serviceName with
  | none =>
    { result := .error ("failed to get gRPC client for " ++ serviceName)
      state := st
      queried := true }
  | some reg =>
    let info := discoverService reg serviceName now
    { result := .ok info
      state := ⟨upsert serviceName info st.cache⟩
      queried := true }

/-- `GetServiceInfo`: serve the cached entry while
`time.Since(cached.LastUpdate) < cacheTTL`, otherwise rediscover.
(`time.Since` on a `Nat` clock is truncated subtraction; an entry stamped in
the future reads as duration `0`, fresh — exactly as Go's negative duration
compares below the TTL.) -/
def getServiceInfo (env : DiscoveryEnv) (st : DiscoveryState)
    (serviceName : String) (now : Nat) : DescribeResult :=
  match lookupKey serviceName st.cache with
  | some cached =>
    if now - cached.lastUpdate < cacheTTL then
      { result := .ok cached, state := st, queried := false }
    else discoverAndStore env st serviceName now
  | none => discoverAndStore env st serviceName now

/-- `ClearCache`: unconditionally empty the cache. -/
def clearCache (_st : DiscoveryState) : DiscoveryState := ⟨[]⟩

/-! ## Connection registries (client.go: ClientManager.GetClient;
discovery.go: ServiceDiscovery.getClient) -/

/-- Static configuration: bearer token and backend name → endpoint URL. -/
structure Config where
  token : String
  endpoints : List (String × String)

/-- Endpoint URL → dial address: strip a `grpc+ssl://` scheme and a `/v1`
version suffix when present (`strings.TrimPrefix` / `strings.TrimSuffix`). -/
def endpointToAddress (endpoint : String) : String :=
  let a := if endpoint.startsWith "grpc+ssl://" then endpoint.drop 11 else endpoint
  if a.endsWith "/v1" then a.dropRight 3 else a

/-- `PerRPCCredentials.GetRequestMetadata`: attach the token, with any
`"Bearer "` marker removed, under the fixed `token` metadata key. -/
def requestMetadata (token : String) : List (String × String) :=
  [("token", if token.startsWith "Bearer " then token.drop 7 else token)]

/-- The two connection maps of the running system: `ClientManager.clients`
and `ServiceDiscovery.clients` (each with its paired reflection client,
collapsed to a single numeric handle).  `nextConn` numbers the connections in
creation order so that distinct creations yield distinct handles. -/
structure ConnState where
  mClients : List (String × Nat)
  sdClients : List (String × Nat)
  nextConn : Nat
deriving DecidableEq, Repr

/-- Both maps start empty (`NewClientManager` / `NewServiceDiscovery`). -/
def initConnState : ConnState := ⟨[], [], 0⟩

/-- `ClientManager.GetClient`: return the stored connection if present;
otherwise fail when no endpoint is configured, else create a fresh
connection and store it.  (Transport construction is lazy in Go —
`grpc.NewClient` does not dial — so creation itself does not fail when an
endpoint exists.) -/
def getClientCM (cfg : Config) (s : ConnState) (serviceName : String) :
    Option Nat × ConnState :=
  match lookupKey serviceName s.mClients with
  | some conn => (some conn, s)
  | none =>
    match lookupKey serviceName cfg.endpoints with
    | none => (none, s)
    | some _ =>
      (some s.nextConn,
        { s with
          mClients := upsert serviceName s.nextConn s.mClients
          nextConn := s.nextConn + 1 })

/-- `ServiceDiscovery.getClient`: the same lookup-or-create logic over the
discovery component's own `clients` map. -/
def getClientSD (cfg : Config) (s : ConnState) (serviceName : String) :
    Option Nat × ConnState :=
  match lookupKey serviceName s.sdClients with
  | some conn => (some conn, s)
  | none =>
    match lookupKey serviceName cfg.endpoints with
    | none => (none, s)
    | some _ =>
      (some s.nextConn,
        { s with
          sdClients := upsert serviceName s.nextConn s.sdClients
          nextConn := s.nextConn + 1 })

/-- States the running system can reach by any interleaving of client
lookups on either component. -/
inductive Reachable (cfg : Config) : ConnState → Prop where
  | init : Reachable cfg initConnState
  | stepCM (s : ConnState) (n : String) :
      Reachable cfg s → Reachable cfg (getClientCM cfg s n).2
  | stepSD (s : ConnState) (n : String) :
      Reachable cfg s → Reachable cfg (getClientSD cfg s n).2

/-- Live connections held for a backend name across the whole system
(connections are closed only at process shutdown). -/
def liveConnections (s : ConnState) (name : String) : Nat :=
  countKey name s.mClients + countKey name s.sdClients

/-! ## Method invocation (service.go: CallMethod; constants.go) -/

/-- Error codes of the structured `APIError`s `CallMethod` can produce. -/
inductive ErrCode where
  | serviceDescriptorFailed
  | methodNotFound
  | rpcCallFailed
  | responseConversionFailed
  | jsonConversionFailed
deriving DecidableEq, Repr

/-- `errors.APIError`, reduced to its stable code plus detail text. -/
structure APIError where
  code : ErrCode
  details : String
deriving DecidableEq, Repr

/-- `constants.DefaultTimeout` (seconds). -/
def defaultTimeout : Nat := 30

def nanosPerSecond : Nat := 1000000000

/-- `constants.ServiceNamePattern` = `"spaceone.api.%s.v1.%s"` applied via
`fmt.Sprintf` to `(serviceName, resourceName)`. -/
def serviceNamePattern (serviceName resourceName : String) : String :=
  "spaceone.api." ++ serviceName ++ ".v1." ++ resourceName

/-- Stand-in for `dynamic.Message.MarshalJSONIndent` on the value model:
a plain JSON rendering (always succeeds on model values, so the Go
`ErrJSONConversionFailed` path is not exercised by the model). -/
def jsonRender : GoValue → String
  | .str s => "\"" ++ s ++ "\""
  | .intV n => toString n
  | .int32V n => toString n
  | .int64V n => toString n
  | .float32V q => toString q
  | .float64V q => toString q
  | .boolV b => if b then "true" else "false"
  | .nullV => "null"
  | .composite n => "\x7bcomposite#" ++ toString n ++ "\x7d"

/-- The RPC transport at its interface boundary: given the resolved method,
the built request message and the context deadline (absolute, nanoseconds),
produce the single attempt's outcome — a response or an error string
(deadline expiry included, as gRPC surfaces it as an ordinary call error). -/
def Transport := MethodSchema → DynMessage → Nat → Except String GoValue

/-- The reserved-resource full-name assignment inside `CallMethod`
(service.go lines 75–80): `Health` and `ServerInfo` map to fixed literal
operation-group identifiers (the branch is reached only for these two
resource names). -/
def reservedResolvedName (resourceName : String) : String :=
  if resourceName = "Health" then "grpc.health.v1.Health"
  else "spaceone.api.core.v1.ServerInfo"

/-- `CallMethod` and its state after cache effects. -/
structure CallOutcome where
  result : Except APIError String
  state : DiscoveryState
deriving Repr

/-- The tail of `CallMethod` after service resolution (service.go lines
99–148): find the method, build the request message by the skipping
parameter loop, invoke with a `DefaultTimeout`-second deadline measured from
the invocation instant, map transport errors to `RPCCallFailed`, and
serialize the response. -/
def callMethodFinish (transport : Transport) (now : Nat) (verb : String)
    (parameters : List (String × GoValue)) (sd : ServiceSchema)
    (st : DiscoveryState) : CallOutcome :=
  match findMethodByName sd verb with
  | none => ⟨.error ⟨.methodNotFound, "method '" ++ verb ++ "' not found"⟩, st⟩
  | some methodDesc =>
    let requestMsg := applyParams methodDesc.inputFields [] parameters
    match transport methodDesc requestMsg (now + defaultTimeout * nanosPerSecond) with
    | .error e => ⟨.error ⟨.rpcCallFailed, e⟩, st⟩
    | .ok resp => ⟨.ok (jsonRender resp), st⟩

/-- `CallMethod` (service.go lines 36–148).  The reserved resource names
`Health` / `ServerInfo` go through the schema cache and then resolve their
fixed literal full names; every other resource resolves the name rebuilt
from `ServiceNamePattern`.  `reg` is the refClient's backend registry, `env`
the discovery environment used by the cache, `now` the invocation instant. -/
def callMethod (reg : Registry) (env : DiscoveryEnv) (transport : Transport)
    (st : DiscoveryState) (now : Nat)
    (serviceName resourceName verb : String)
    (parameters : List (String × GoValue)) : CallOutcome :=
  if resourceName = "Health" ∨ resourceName = "ServerInfo" then
    match getServiceInfo env st serviceName now with
    | ⟨.error e, st', _⟩ =>
      ⟨.error ⟨.serviceDescriptorFailed, "Failed to get service info: " ++ e⟩, st'⟩
    | ⟨.ok info, st', _⟩ =>
      match lookupKey resourceName info.resources with
      | none =>
        ⟨.error ⟨.serviceDescriptorFailed,
          "Resource '" ++ resourceName ++ "' not found in service '" ++ serviceName ++ "'"⟩, st'⟩
      | some resource =>
        if resource.verbs.contains verb then
          let serviceFullName := reservedResolvedName resourceName
          match resolveService reg serviceFullName with
          | none =>
            ⟨.error ⟨.serviceDescriptorFailed,
              "Failed to resolve service " ++ serviceFullName⟩, st'⟩
          | some sd => callMethodFinish transport now verb parameters sd st'
        else
          ⟨.error ⟨.serviceDescriptorFailed,
            "Verb '" ++ verb ++ "' not found for resource '" ++ resourceName ++ "'"⟩, st'⟩
  else
    let serviceFullName := serviceNamePattern serviceName resourceName
    match resolveService reg serviceFullName with
    | none => ⟨.error ⟨.serviceDescriptorFailed, "failed to resolve " ++ serviceFullName⟩, st⟩
    | some sd => callMethodFinish transport now verb parameters sd st

/-! ## HTTP-facing parameter filtering (handlers.go: CallGRPCMethod lines
82–89) -/

/-- The handler's metadata filter: drop body entries keyed `service`,
`resource` or `verb`; keep every other entry unchanged. -/
def filterGRPCParameters (requestBody : List (String × GoValue)) :
    List (String × GoValue) :=
  requestBody.filter
    (fun kv => kv.1 ≠ "service" ∧ kv.1 ≠ "resource" ∧ kv.1 ≠ "verb")

/-- The per-field outcome of `setMessageField`, isolated from the message it
is applied to: the value stored for a field (direct, or after conversion), or
`none` when the field is unknown or both assignment attempts fail. -/
def coerceField (fields : List FieldDesc) (k : String) (v : GoValue) :
    Option GoValue :=
  match fields.find? (fun f => f.name = k) with
  | none => none
  | some fd =>
    if directSetOk fd.ftype v then some v
    else if directSetOk fd.ftype (convertValue v fd.ftype) then
      some (convertValue v fd.ftype)
    else none

deriving instance DecidableEq for Except

/-! ## Helper lemmas on the association-list model -/

theorem lookupKey_upsert_self (k : String) (v : α) (m : List (String × α)) :
    lookupKey k (upsert k v m) = some v := by
  induction m with
  | nil => simp [upsert, lookupKey]
  | cons kv rest ih =>
    obtain ⟨k', v'⟩ := kv
    by_cases h : k' = k <;> simp [upsert, lookupKey, h, ih]

theorem lookupKey_upsert_ne (k k' : String) (v : α) (m : List (String × α))
    (h : k' ≠ k) : lookupKey k' (upsert k v m) = lookupKey k' m := by
  induction m with
  | nil =>
    simp only [upsert, lookupKey]
    rw [if_neg (fun hk => h hk.symm)]
  | cons kv rest ih =>
    obtain ⟨k'', v''⟩ := kv
    by_cases hk : k'' = k
    · subst hk
      simp only [upsert, if_pos rfl, lookupKey]
      rw [if_neg (fun hc => h hc.symm), if_neg (fun hc => h hc.symm)]
    · simp only [upsert, if_neg hk, lookupKey]
      by_cases hc : k'' = k' <;> simp [hc, ih]

theorem countKey_upsert_self (k : String) (v : α) (m : List (String × α)) :
    countKey k (upsert k v m) = max (countKey k m) 1 := by
  induction m with
  | nil => simp [upsert, countKey]
  | cons kv rest ih =>
    obtain ⟨k', v'⟩ := kv
    by_cases h : k' = k
    · subst h
      simp [upsert, countKey]
    · simp only [upsert, if_neg h, countKey, if_neg h, ih]
      omega

theorem countKey_upsert_ne (k k' : String) (v : α) (m : List (String × α))
    (h : k' ≠ k) : countKey k' (upsert k v m) = countKey k' m := by
  induction m with
  | nil =>
    simp only [upsert, countKey]
    rw [if_neg (fun hk => h hk.symm)]
  | cons kv rest ih =>
    obtain ⟨k'', v''⟩ := kv
    by_cases hk : k'' = k
    · subst hk
      simp only [upsert, if_pos rfl, countKey]
    · simp only [upsert, if_neg hk, countKey, ih]

/-! ## C4 — naming-convention extraction with aliasing -/

/-- **C4.** Resource extraction follows the 5-segment convention
`<namespace>.<domain>.<service>.<version>.<resource>` with the symmetric
alias table.  The spec writes the fixed namespace prefix as `ns.api`; in the
source it is the literal `spaceone.api`, so the three spec instances are
evaluated with that prefix instantiated: an exact service-segment match and
an aliased (`inventory_v2` ↔ `inventory`) match both return the resource
segment `Server`, and a foreign service segment returns the no-match result
`""`. -/
theorem extractResource_convention_and_alias :
    extractResourceName "spaceone.api.inventory.v1.Server" "inventory" = "Server" ∧
    extractResourceName "spaceone.api.inventory_v2.v1.Server" "inventory" = "Server" ∧
    extractResourceName "spaceone.api.other.v1.Server" "inventory" = "" := by
  refine ⟨by decide, by decide, by decide⟩

/-! ## C8 — reserved operation-groups -/

/-- **C8.** The two reserved full operation-group names are recognized by
literal full name for every requested service name, bypassing the
naming-convention parse, and the invocation resolver's reserved-name
assignment (`reservedResolvedName`) re-derives exactly the identifiers the
taxonomy builder recognizes: extraction maps each reserved resolved name
back to its reserved resource name, for every requested service name. -/
theorem reserved_groups_fixed_resolution : ∀ serviceName : String,
    extractResourceName "grpc.health.v1.Health" serviceName = "Health" ∧
    extractResourceName "spaceone.api.core.v1.ServerInfo" serviceName = "ServerInfo" ∧
    reservedResolvedName "Health" = "grpc.health.v1.Health" ∧
    reservedResolvedName "ServerInfo" = "spaceone.api.core.v1.ServerInfo" ∧
    extractResourceName (reservedResolvedName "Health") serviceName = "Health" ∧
    extractResourceName (reservedResolvedName "ServerInfo") serviceName = "ServerInfo" :=
  fun _ => ⟨rfl, rfl, rfl, rfl, rfl, rfl⟩

/-! ## C10 — request-body metadata filtering -/

/-- **C10.** The HTTP-facing invoke path removes exactly the body entries
keyed `service`, `resource` or `verb` before invocation: an entry with one of
those keys never survives the filter (so a gRPC input field of that name can
never be set through this interface), while lookups of every other key are
unchanged, and the surviving entries are exactly the original non-reserved
entries. -/
theorem filterGRPCParameters_removes_reserved_keys :
    ∀ (body : List (String × GoValue)) (k : String),
    (lookupKey k (filterGRPCParameters body) =
      if k = "service" ∨ k = "resource" ∨ k = "verb" then none else lookupKey k body) ∧
    (∀ kv : String × GoValue, kv ∈ filterGRPCParameters body ↔
      kv ∈ body ∧ kv.1 ≠ "service" ∧ kv.1 ≠ "resource" ∧ kv.1 ≠ "verb") := by
  intro body k
  constructor
  · induction body with
    | nil => by_cases h : k = "service" ∨ k = "resource" ∨ k = "verb" <;>
        simp [filterGRPCParameters, lookupKey, h]
    | cons kv rest ih =>
      obtain ⟨k', v'⟩ := kv
      by_cases hres : k' = "service" ∨ k' = "resource" ∨ k' = "verb"
      · have hfilter : filterGRPCParameters ((k', v') :: rest) = filterGRPCParameters rest := by
          simp only [filterGRPCParameters, List.filter_cons]
          rcases hres with h | h | h <;> simp [h]
        rw [hfilter, ih]
        by_cases hk : k = "service" ∨ k = "resource" ∨ k = "verb"
        · simp [hk]
        · have hne : k' ≠ k := by rintro rfl; exact hk hres
          simp [hk, lookupKey, hne]
      · push_neg at hres
        have hfilter : filterGRPCParameters ((k', v') :: rest) =
            (k', v') :: filterGRPCParameters rest := by
          simp only [filterGRPCParameters, List.filter_cons]
          simp [hres.1, hres.2.1, hres.2.2]
        rw [hfilter]
        by_cases hk' : k' = k
        · rcases hk' with rfl
          have hk : ¬(k' = "service" ∨ k' = "resource" ∨ k' = "verb") := by
            rintro (h | h | h)
            · exact hres.1 h
            · exact hres.2.1 h
            · exact hres.2.2 h
          simp [lookupKey, hk]
        · simp only [lookupKey, if_neg hk']
          exact ih
  · intro kv
    simp only [filterGRPCParameters, List.mem_filter, decide_eq_true_eq]

/-! ## C5 — kind-directed value coercion -/

/-- A sample 64-bit integer input field, for evaluating field-level
coercion. -/
def countField : FieldDesc :=
  { name := "count", hasDefault := false, isRepeated := false, ftype := .tint64 }

/-- **C5 counterexample.**  The claim that a boolean-kind field coerces
*every* value other than a native `true` boolean or the case-sensitive
strings `"true"`/`"1"` to `false` is refuted by a non-boolean, non-string
value: a numeric `1` is passed through unconverted, not mapped to `false`
(the Go switch only handles `bool` and `string` and falls through to
returning the value unchanged). -/
theorem bool_coercion_nonstring_counterexample :
    ¬ (∀ v : GoValue, v ≠ .boolV true → v ≠ .str "true" → v ≠ .str "1" →
        convertValue v .tbool = .boolV false) := by
  intro h
  have h1 := h (.float64V 1) (by decide) (by decide) (by decide)
  rw [show convertValue (.float64V 1) .tbool = .float64V 1 from rfl] at h1
  exact absurd h1 (by decide)

/-- **C5 (amended).**  Value coercion is kind-directed: an integer-kind field
given the string `"42"` coerces to integer `42`; native integers pass
through; decimal numbers are truncated toward zero (to a 64-bit value even
for 32-bit fields); a boolean-kind field given `"true"` coerces to `true`
and given `"0"` to `false` — a string maps to `true` exactly for the
case-sensitive strings `"true"`/`"1"` and to `false` otherwise, a native
boolean passes through, and a non-boolean non-string value is passed through
unconverted rather than coerced to `false`; floating-point kinds accept
native numeric types and numeric strings; text kind accepts any value,
stringifying non-text input; an unparseable numeric string is left
unconverted, so the field-level assignment rejects it and the field is
dropped. -/
theorem value_coercion_kind_directed :
    (convertValue (.str "42") .tint32 = .int32V 42) ∧
    (convertValue (.str "42") .tint64 = .int64V 42) ∧
    (∀ n : Int, convertValue (.intV n) .tint64 = .intV n ∧
      convertValue (.int32V n) .tint64 = .int32V n ∧
      convertValue (.int64V n) .tint64 = .int64V n) ∧
    (∀ q : Rat, convertValue (.float64V q) .tint64 = .int64V (truncRat q) ∧
      convertValue (.float64V q) .tint32 = .int64V (truncRat q)) ∧
    (convertValue (.str "true") .tbool = .boolV true) ∧
    (convertValue (.str "1") .tbool = .boolV true) ∧
    (convertValue (.str "0") .tbool = .boolV false) ∧
    (convertValue (.str "True") .tbool = .boolV false) ∧
    (∀ b : Bool, convertValue (.boolV b) .tbool = .boolV b) ∧
    (∀ s : String, convertValue (.str s) .tbool = .boolV (s = "true" ∨ s = "1")) ∧
    (∀ q : Rat, convertValue (.float64V q) .tbool = .float64V q) ∧
    (∀ n : Int, convertValue (.intV n) .tbool = .intV n) ∧
    (∀ q : Rat, convertValue (.float32V q) .tdouble = .float32V q ∧
      convertValue (.float64V q) .tdouble = .float64V q) ∧
    (∀ n : Int, convertValue (.intV n) .tdouble = .float64V (n : Rat)) ∧
    (∀ s : String, convertValue (.str s) .tdouble =
      (match sscanfFloat s with
       | some q => .float64V q
       | none => .str s)) ∧
    ((sscanfFloat "2.5").isSome = true) ∧
    (∀ s : String, convertValue (.str s) .tstring = .str s) ∧
    (∀ v : GoValue, ∃ s, convertValue v .tstring = .str s) ∧
    (convertValue (.str "abc") .tint64 = .str "abc") ∧
    (coerceField [countField] "count" (.str "abc") = none) ∧
    (coerceField [countField] "count" (.str "42") = some (.int64V 42)) := by
  refine ⟨by decide, by decide, fun n => ⟨rfl, rfl, rfl⟩, fun q => ⟨rfl, rfl⟩,
    by decide, by decide, by decide, by decide, fun b => rfl, fun s => rfl,
    fun q => rfl, fun n => rfl, fun q => ⟨rfl, rfl⟩, fun n => rfl, fun s => rfl,
    by decide, fun s => rfl, fun v => ?_, by decide, by decide, by decide⟩
  cases v <;> exact ⟨_, rfl⟩

/-! ## C7 — required/optional field classification -/

/-- `classifyFields` in closed form: the required list collects the names of
unclassified-as-optional fields, in order, and the optional list the rest. -/
theorem classifyFields_eq (fields : List FieldDesc) :
    classifyFields fields =
      ((fields.filter (fun f => !(f.hasDefault || f.isRepeated))).map FieldDesc.name,
       (fields.filter (fun f => f.hasDefault || f.isRepeated)).map FieldDesc.name) := by
  induction fields with
  | nil => rfl
  | cons f rest ih =>
    obtain ⟨nm, hd, rp, ft⟩ := f
    cases hd <;> cases rp <;> simp [classifyFields, ih, List.filter_cons]

/-- The classified name lists are a permutation of all declared field
names. -/
theorem classifyFields_perm (fields : List FieldDesc) :
    ((classifyFields fields).1 ++ (classifyFields fields).2).Perm
      (fields.map FieldDesc.name) := by
  induction fields with
  | nil => simp [classifyFields]
  | cons f rest ih =>
    obtain ⟨nm, hd, rp, ft⟩ := f
    cases hd <;> cases rp <;>
      simp only [classifyFields, Bool.or_false, Bool.or_true, Bool.false_or,
        Bool.true_or, ite_true, ite_false, List.map_cons, List.cons_append,
        Bool.false_eq_true, Bool.true_eq_false] <;>
      first
        | exact List.perm_middle.trans (ih.cons nm)
        | exact ih.cons nm

/-- **C7.** Every declared input field that is repeated or carries a default
value is classified optional, every other field required; the two lists
together are a permutation of the declared field names (so required ∪
optional covers every field), and — the field names of a message type being
distinct — no name is classified both ways (required ∩ optional = ∅). -/
theorem field_classification_partitions (m : MethodSchema) :
    (∀ f ∈ m.inputFields, (f.hasDefault || f.isRepeated) = true →
      f.name ∈ (extractMethodInfo m).optionalParams) ∧
    (∀ f ∈ m.inputFields, (f.hasDefault || f.isRepeated) = false →
      f.name ∈ (extractMethodInfo m).requiredParams) ∧
    ((extractMethodInfo m).requiredParams ++ (extractMethodInfo m).optionalParams).Perm
      (m.inputFields.map FieldDesc.name) ∧
    ((m.inputFields.map FieldDesc.name).Nodup →
      ∀ n, ¬(n ∈ (extractMethodInfo m).requiredParams ∧
        n ∈ (extractMethodInfo m).optionalParams)) := by
  have hreq : (extractMethodInfo m).requiredParams = (classifyFields m.inputFields).1 := by
    simp [extractMethodInfo]
  have hopt : (extractMethodInfo m).optionalParams = (classifyFields m.inputFields).2 := by
    simp [extractMethodInfo]
  refine ⟨?_, ?_, ?_, ?_⟩
  · intro f hf hcls
    rw [hopt, classifyFields_eq]
    exact List.mem_map_of_mem FieldDesc.name (List.mem_filter.2 ⟨hf, by simp [hcls]⟩)
  · intro f hf hcls
    rw [hreq, classifyFields_eq]
    exact List.mem_map_of_mem FieldDesc.name (List.mem_filter.2 ⟨hf, by simp [hcls]⟩)
  · rw [hreq, hopt]; exact classifyFields_perm m.inputFields
  · intro hnodup n ⟨hn1, hn2⟩
    have hperm := classifyFields_perm m.inputFields
    have hnd : ((classifyFields m.inputFields).1 ++ (classifyFields m.inputFields).2).Nodup :=
      hperm.nodup_iff.2 hnodup
    exact (List.disjoint_of_nodup_append hnd) (hreq ▸ hn1) (hopt ▸ hn2)

/-- A sample operation: one plain field, one repeated field, one defaulted
field. -/
def sampleMethod : MethodSchema :=
  { name := "create"
    inputFields :=
      [ { name := "display", hasDefault := false, isRepeated := false, ftype := .tstring }
      , { name := "tags", hasDefault := false, isRepeated := true, ftype := .tother }
      , { name := "limit", hasDefault := true, isRepeated := false, ftype := .tint64 } ]
    inputTypeName := "spaceone.api.sample.v1.CreateRequest" }

/-- Witness for the classification partition at a concrete operation. -/
theorem field_classification_partitions_witness :
    "tags" ∈ (extractMethodInfo sampleMethod).optionalParams ∧
    "limit" ∈ (extractMethodInfo sampleMethod).optionalParams ∧
    "display" ∈ (extractMethodInfo sampleMethod).requiredParams ∧
    ¬("display" ∈ (extractMethodInfo sampleMethod).requiredParams ∧
      "display" ∈ (extractMethodInfo sampleMethod).optionalParams) := by
  refine ⟨?_, ?_, ?_, ?_⟩
  · exact (field_classification_partitions sampleMethod).1
      { name := "tags", hasDefault := false, isRepeated := true, ftype := .tother }
      (by decide) (by decide)
  · exact (field_classification_partitions sampleMethod).1
      { name := "limit", hasDefault := true, isRepeated := false, ftype := .tint64 }
      (by decide) (by decide)
  · exact (field_classification_partitions sampleMethod).2.1
      { name := "display", hasDefault := false, isRepeated := false, ftype := .tstring }
      (by decide) (by decide)
  · exact (field_classification_partitions sampleMethod).2.2.2 (by decide) "display"

/-! ## C3 — schema cache freshness policy -/

/-- **C3.** `GetServiceInfo` returns from the cache without any registry
query exactly when an entry exists and `now − lastRefresh < TTL`
(5 minutes): a fresh hit returns the stored entry with the cache unchanged;
in every other case a discovery pass runs, and — when the registry is
reachable — the entry is replaced wholesale by the newly discovered
`ServiceInfo` stamped `now`; after `ClearCache` (which unconditionally
empties all entries) the next lookup always queries the registry, TTL
notwithstanding. -/
theorem describe_cache_ttl_semantics (env : DiscoveryEnv) (st : DiscoveryState)
    (serviceName : String) (now : Nat) :
    ((getServiceInfo env st serviceName now).queried = false ↔
      ∃ info, lookupKey serviceName st.cache = some info ∧
        now - info.lastUpdate < cacheTTL) ∧
    (∀ info, lookupKey serviceName st.cache = some info →
      now - info.lastUpdate < cacheTTL →
      getServiceInfo env st serviceName now = ⟨.ok info, st, false⟩) ∧
    (∀ reg, env serviceName = some reg →
      (∀ info, lookupKey serviceName st.cache = some info →
        ¬(now - info.lastUpdate < cacheTTL)) →
      getServiceInfo env st serviceName now =
        ⟨.ok (discoverService reg serviceName now),
         ⟨upsert serviceName (discoverService reg serviceName now) st.cache⟩,
         true⟩ ∧
      (discoverService reg serviceName now).lastUpdate = now) ∧
    ((getServiceInfo env (clearCache st) serviceName now).queried = true) ∧
    cacheTTL = 5 * 60 * 1000000000 := by
  refine ⟨⟨?_, ?_⟩, ?_, ?_, ?_, rfl⟩
  · intro hq
    by_contra hno
    push_neg at hno
    cases hl : lookupKey serviceName st.cache with
    | none =>
      cases he : env serviceName <;>
        simp [getServiceInfo, hl, discoverAndStore, he] at hq
    | some info =>
      by_cases hf : now - info.lastUpdate < cacheTTL
      · exact absurd hf (by simpa [hl] using hno info)
      · cases he : env serviceName <;>
          simp [getServiceInfo, hl, hf, discoverAndStore, he] at hq
  · rintro ⟨info, hl, hf⟩
    simp [getServiceInfo, hl, hf]
  · intro info hl hf
    simp [getServiceInfo, hl, hf]
  · intro reg hreg hstale
    refine ⟨?_, rfl⟩
    cases hl : lookupKey serviceName st.cache with
    | none => simp [getServiceInfo, hl, discoverAndStore, hreg]
    | some info =>
      have hf := hstale info hl
      simp [getServiceInfo, hl, hf, discoverAndStore, hreg]
  · cases he : env serviceName <;>
      simp [getServiceInfo, clearCache, lookupKey, discoverAndStore, he]

/-- A sample conventional operation-group with one verb. -/
def sampleSchema : ServiceSchema :=
  { fullName := "spaceone.api.identity.v1.User"
    methods := [{ name := "list", inputFields := [countField],
                  inputTypeName := "spaceone.api.identity.v1.UserQuery" }] }

/-- A sample backend registry advertising one conventional operation-group
(with one verb) and one foreign group. -/
def sampleRegistry : Registry :=
  { advertised := ["spaceone.api.identity.v1.User", "acme.other.v1.Thing"]
    schemas := [sampleSchema] }

/-- A discovery environment where only the `identity` backend is
reachable. -/
def sampleEnv : DiscoveryEnv :=
  fun n => if n = "identity" then some sampleRegistry else none

/-- The `ServiceInfo` discovery yields for `identity` at instant `0`. -/
def sampleInfo : ServiceInfo := discoverService sampleRegistry "identity" 0

/-- Witness for the cache policy: a fresh hit 100 ns after discovery is
served from the cache with no query; on an empty cache, lookup at instant 7
rediscovers and stores the entry stamped 7. -/
theorem describe_cache_ttl_semantics_witness :
    (getServiceInfo sampleEnv ⟨[("identity", sampleInfo)]⟩ "identity" 100 =
      ⟨.ok sampleInfo, ⟨[("identity", sampleInfo)]⟩, false⟩) ∧
    (getServiceInfo sampleEnv ⟨[]⟩ "identity" 7 =
      ⟨.ok (discoverService sampleRegistry "identity" 7),
       ⟨upsert "identity" (discoverService sampleRegistry "identity" 7) []⟩,
       true⟩) := by
  constructor
  · exact (describe_cache_ttl_semantics sampleEnv ⟨[("identity", sampleInfo)]⟩
      "identity" 100).2.1 sampleInfo (by decide) (by decide)
  · exact ((describe_cache_ttl_semantics sampleEnv ⟨[]⟩ "identity" 7).2.2.1
      sampleRegistry (by decide) (fun info h => by simp [lookupKey] at h)).1

/-! ## C2 — connection reuse -/

/-- Each connection-owning component keeps at most one entry per backend
name in its own map, at every reachable state. -/
theorem reachable_at_most_one (cfg : Config) (s : ConnState)
    (h : Reachable cfg s) :
    ∀ n, countKey n s.mClients ≤ 1 ∧ countKey n s.sdClients ≤ 1 := by
  induction h with
  | init => intro n; simp [initConnState, countKey]
  | stepCM s' name hs ih =>
    intro n
    cases hm : lookupKey name s'.mClients with
    | some c => simpa [getClientCM, hm] using ih n
    | none =>
      cases he : lookupKey name cfg.endpoints with
      | none => simpa [getClientCM, hm, he] using ih n
      | some ep =>
        simp only [getClientCM, hm, he]
        refine ⟨?_, (ih n).2⟩
        by_cases hn : n = name
        · subst hn
          rw [countKey_upsert_self]
          have := (ih n).1
          omega
        · rw [countKey_upsert_ne name n _ _ hn]
          exact (ih n).1
  | stepSD s' name hs ih =>
    intro n
    cases hm : lookupKey name s'.sdClients with
    | some c => simpa [getClientSD, hm] using ih n
    | none =>
      cases he : lookupKey name cfg.endpoints with
      | none => simpa [getClientSD, hm, he] using ih n
      | some ep =>
        simp only [getClientSD, hm, he]
        refine ⟨(ih n).1, ?_⟩
        by_cases hn : n = name
        · subst hn
          rw [countKey_upsert_self]
          have := (ih n).2
          omega
        · rw [countKey_upsert_ne name n _ _ hn]
          exact (ih n).2

/-- A configuration with one backend. -/
def dualConfig : Config :=
  { token := "t", endpoints := [("identity", "grpc+ssl://idt:50051/v1")] }

/-- The state after one invocation touches both components for the same
backend (the handler path: discovery's `getClient`, then the manager's
`GetClient`). -/
def dualState : ConnState :=
  (getClientSD dualConfig
    (getClientCM dualConfig initConnState "identity").2 "identity").2

/-- **C2 counterexample.**  The whole system does not hold at most one live
connection per backend name: `ClientManager` and `ServiceDiscovery` each own
a separate `clients` map and each creates its own connection for the same
backend, so a reachable state holds two live connections for `identity`. -/
theorem connection_per_backend_counterexample :
    Reachable dualConfig dualState ∧ liveConnections dualState "identity" = 2 :=
  ⟨Reachable.stepSD _ _ (Reachable.stepCM _ _ Reachable.init), by decide⟩

/-- **C2 (amended).**  For every backend name with a configured address,
lookup-or-create is idempotent *per connection-owning component*: on either
component, every call after the first returns the same handle and leaves the
state unchanged; each component holds at most one live connection per
backend name at every reachable state, so the system as a whole holds at
most two (one per component), not one. -/
theorem connection_reuse_idempotent_per_component (cfg : Config)
    (name : String) (s s' : ConnState) (h : Nat) :
    (getClientCM cfg s name = (some h, s') →
      getClientCM cfg s' name = (some h, s')) ∧
    (getClientSD cfg s name = (some h, s') →
      getClientSD cfg s' name = (some h, s')) ∧
    (Reachable cfg s →
      countKey name s.mClients ≤ 1 ∧ countKey name s.sdClients ≤ 1 ∧
      liveConnections s name ≤ 2) := by
  refine ⟨?_, ?_, ?_⟩
  · intro hcall
    cases hm : lookupKey name s.mClients with
    | some c =>
      simp only [getClientCM, hm] at hcall
      injection hcall with h1 h2
      injection h1 with h3
      subst h2; subst h3
      simp [getClientCM, hm]
    | none =>
      cases he : lookupKey name cfg.endpoints with
      | none => simp [getClientCM, hm, he] at hcall
      | some ep =>
        simp only [getClientCM, hm, he] at hcall
        injection hcall with h1 h2
        injection h1 with h3
        subst h2; subst h3
        simp [getClientCM, lookupKey_upsert_self]
  · intro hcall
    cases hm : lookupKey name s.sdClients with
    | some c =>
      simp only [getClientSD, hm] at hcall
      injection hcall with h1 h2
      injection h1 with h3
      subst h2; subst h3
      simp [getClientSD, hm]
    | none =>
      cases he : lookupKey name cfg.endpoints with
      | none => simp [getClientSD, hm, he] at hcall
      | some ep =>
        simp only [getClientSD, hm, he] at hcall
        injection hcall with h1 h2
        injection h1 with h3
        subst h2; subst h3
        simp [getClientSD, lookupKey_upsert_self]
  · intro hreach
    have hb := reachable_at_most_one cfg s hreach name
    exact ⟨hb.1, hb.2, by unfold liveConnections; omega⟩

/-- Witness for the amended connection-reuse property: a second manager
lookup for `identity` returns the handle created by the first, and the
reachable two-component state stays within the bound of two. -/
theorem connection_reuse_idempotent_witness :
    getClientCM dualConfig (getClientCM dualConfig initConnState "identity").2
      "identity" = (some 0, (getClientCM dualConfig initConnState "identity").2) ∧
    liveConnections dualState "identity" ≤ 2 := by
  constructor
  · exact (connection_reuse_idempotent_per_component dualConfig "identity"
      initConnState (getClientCM dualConfig initConnState "identity").2 0).1
      (by decide)
  · exact ((connection_reuse_idempotent_per_component dualConfig "identity"
      dualState dualState 0).2.2
      (Reachable.stepSD _ _ (Reachable.stepCM _ _ Reachable.init))).2.2

/-! ## C6 — local recovery of per-field failures -/

/-- When the per-field coercion succeeds with stored value `w`,
`setMessageField` updates exactly that field of the message. -/
theorem setMessageField_coerce_some (fields : List FieldDesc) (msg : DynMessage)
    (k : String) (v w : GoValue) (h : coerceField fields k v = some w) :
    setMessageField fields msg k v = .ok (upsert k w msg) := by
  simp only [coerceField] at h
  cases hf : fields.find? (fun f => f.name = k) with
  | none => simp [hf] at h
  | some fd =>
    simp only [hf] at h
    by_cases hd : directSetOk fd.ftype v = true
    · simp only [if_pos hd, Option.some.injEq] at h
      subst h
      simp [setMessageField, trySetFieldByName, hf, hd]
    · simp only [if_neg hd] at h
      by_cases hc : directSetOk fd.ftype (convertValue v fd.ftype) = true
      · simp only [if_pos hc, Option.some.injEq] at h
        subst h
        simp [setMessageField, trySetFieldByName, hf, hd, hc]
      · simp [if_neg hc] at h

/-- When the per-field coercion fails, `setMessageField` reports an error
and the message is left for the loop to carry forward unchanged. -/
theorem setMessageField_coerce_none (fields : List FieldDesc) (msg : DynMessage)
    (k : String) (v : GoValue) (h : coerceField fields k v = none) :
    ∃ e, setMessageField fields msg k v = .error e := by
  simp only [coerceField] at h
  cases hf : fields.find? (fun f => f.name = k) with
  | none =>
    exact ⟨"field not found: " ++ k, by simp [setMessageField, trySetFieldByName, hf]⟩
  | some fd =>
    simp only [hf] at h
    by_cases hd : directSetOk fd.ftype v = true
    · simp [if_pos hd] at h
    · simp only [if_neg hd] at h
      by_cases hc : directSetOk fd.ftype (convertValue v fd.ftype) = true
      · simp [if_pos hc] at h
      · exact ⟨"bad type for field " ++ k,
          by simp [setMessageField, trySetFieldByName, hf, hd, hc]⟩

/-- Fields whose key is not among the supplied parameters are untouched by
the parameter loop. -/
theorem applyParams_lookup_not_mem (fields : List FieldDesc) (k : String) :
    ∀ (ps : List (String × GoValue)) (msg : DynMessage),
      k ∉ ps.map Prod.fst →
      lookupKey k (applyParams fields msg ps) = lookupKey k msg := by
  intro ps
  induction ps with
  | nil => intro msg _; rfl
  | cons kv rest ih =>
    intro msg hk
    obtain ⟨k1, v1⟩ := kv
    simp only [List.map_cons, List.mem_cons, not_or] at hk
    obtain ⟨hk1, hkrest⟩ := hk
    cases hc : coerceField fields k1 v1 with
    | some w =>
      have hset := setMessageField_coerce_some fields msg k1 v1 w hc
      simp only [applyParams, hset]
      rw [ih (upsert k1 w msg) hkrest, lookupKey_upsert_ne k1 k w msg hk1]
    | none =>
      obtain ⟨e, hset⟩ := setMessageField_coerce_none fields msg k1 v1 hc
      simp only [applyParams, hset]
      exact ih msg hkrest

/-- The value the loop leaves under a supplied key depends only on that
key's own parameter: its coerced value if coercion succeeds, the prior
message content if not. -/
theorem applyParams_lookup_mem (fields : List FieldDesc) (k : String)
    (v : GoValue) :
    ∀ (ps : List (String × GoValue)) (msg : DynMessage),
      (ps.map Prod.fst).Nodup → (k, v) ∈ ps →
      lookupKey k (applyParams fields msg ps) =
        (match coerceField fields k v with
         | some w => some w
         | none => lookupKey k msg) := by
  intro ps
  induction ps with
  | nil => intro msg _ hmem; cases hmem
  | cons kv rest ih =>
    intro msg hnodup hmem
    obtain ⟨k1, v1⟩ := kv
    rcases List.mem_cons.1 hmem with heq | hmem'
    · cases heq
      have hknotin : k ∉ rest.map Prod.fst := (List.nodup_cons.1 hnodup).1
      cases hc : coerceField fields k v with
      | some w =>
        have hset := setMessageField_coerce_some fields msg k v w hc
        simp only [applyParams, hset]
        rw [applyParams_lookup_not_mem fields k rest (upsert k w msg) hknotin,
          lookupKey_upsert_self]
      | none =>
        obtain ⟨e, hset⟩ := setMessageField_coerce_none fields msg k v hc
        simp only [applyParams, hset]
        exact applyParams_lookup_not_mem fields k rest msg hknotin
    · have hk1 : k1 ≠ k := by
        intro hkk
        subst hkk
        exact (List.nodup_cons.1 hnodup).1
          (List.mem_map.2 ⟨(k1, v), hmem', rfl⟩)
      cases hc1 : coerceField fields k1 v1 with
      | some w =>
        have hset := setMessageField_coerce_some fields msg k1 v1 w hc1
        simp only [applyParams, hset]
        rw [ih (upsert k1 w msg) (List.nodup_cons.1 hnodup).2 hmem',
          lookupKey_upsert_ne k1 k w msg (Ne.symm hk1)]
      | none =>
        obtain ⟨e, hset⟩ := setMessageField_coerce_none fields msg k1 v1 hc1
        simp only [applyParams, hset]
        exact ih msg (List.nodup_cons.1 hnodup).2 hmem'

/-- **C6.** Per-field failures are recovered locally by the parameter loop:
starting from the empty request message, the outgoing value under each
supplied key is exactly that key's own coercion outcome — a failing field
(unknown name or unconvertible value) is absent from the request, every
succeeding field carries its coerced value regardless of any other field's
failure — and keys never supplied stay absent.  The loop is total, so the
call always proceeds to invocation with the partial parameter set. -/
theorem per_field_failures_recovered (fields : List FieldDesc)
    (ps : List (String × GoValue)) (k : String) (v : GoValue)
    (hnodup : (ps.map Prod.fst).Nodup) :
    ((k, v) ∈ ps →
      lookupKey k (applyParams fields [] ps) = coerceField fields k v) ∧
    (k ∉ ps.map Prod.fst → lookupKey k (applyParams fields [] ps) = none) := by
  constructor
  · intro hmem
    rw [applyParams_lookup_mem fields k v ps [] hnodup hmem]
    cases coerceField fields k v <;> rfl
  · intro hk
    rw [applyParams_lookup_not_mem fields k ps [] hk]
    rfl

/-- A sample text input field. -/
def displayField : FieldDesc :=
  { name := "display", hasDefault := false, isRepeated := false, ftype := .tstring }

/-- A two-field input type. -/
def demoFields : List FieldDesc := [countField, displayField]

/-- A parameter map with one unconvertible entry and one good entry. -/
def demoParams : List (String × GoValue) :=
  [("count", .str "abc"), ("display", .str "x")]

/-- Witness: with an unparseable `count` alongside a well-formed `display`,
the loop drops only `count` and still applies `display`. -/
theorem per_field_failures_recovered_witness :
    lookupKey "count" (applyParams demoFields [] demoParams) =
      coerceField demoFields "count" (.str "abc") ∧
    lookupKey "display" (applyParams demoFields [] demoParams) =
      coerceField demoFields "display" (.str "x") ∧
    coerceField demoFields "count" (.str "abc") = none ∧
    coerceField demoFields "display" (.str "x") = some (.str "x") :=
  ⟨(per_field_failures_recovered demoFields demoParams "count" (.str "abc")
      (by decide)).1 (by decide),
   (per_field_failures_recovered demoFields demoParams "display" (.str "x")
      (by decide)).1 (by decide),
   by decide, by decide⟩

/-! ## C9 — invocation timeout and error mapping -/

/-- **C9.** Every invocation of a resolved verb runs against a context
deadline of exactly `DefaultTimeout` (30) seconds measured from the
invocation instant.  The transport is consulted for a single attempt at that
deadline — the outcome depends on the transport's behavior at that instant
alone, so no retries occur — and every transport error, deadline expiry
included (gRPC surfaces expiry as the call's error result), is returned to
the caller as `RPCCallFailed` with the cause as detail.  `callMethodFinish`
is a total function, so expiry produces this error value rather than a
hang. -/
theorem invocation_timeout_and_error_mapping :
    defaultTimeout = 30 ∧
    (∀ (transport : Transport) (now : Nat) (verb : String)
        (parameters : List (String × GoValue)) (sd : ServiceSchema)
        (st : DiscoveryState) (methodDesc : MethodSchema) (e : String),
      findMethodByName sd verb = some methodDesc →
      transport methodDesc (applyParams methodDesc.inputFields [] parameters)
        (now + defaultTimeout * nanosPerSecond) = .error e →
      callMethodFinish transport now verb parameters sd st =
        ⟨.error ⟨.rpcCallFailed, e⟩, st⟩) ∧
    (∀ (t1 t2 : Transport) (now : Nat) (verb : String)
        (parameters : List (String × GoValue)) (sd : ServiceSchema)
        (st : DiscoveryState),
      (∀ m req, t1 m req (now + defaultTimeout * nanosPerSecond) =
        t2 m req (now + defaultTimeout * nanosPerSecond)) →
      callMethodFinish t1 now verb parameters sd st =
        callMethodFinish t2 now verb parameters sd st) := by
  refine ⟨rfl, ?_, ?_⟩
  · intro transport now verb parameters sd st methodDesc e hfind htr
    simp [callMethodFinish, hfind, htr]
  · intro t1 t2 now verb parameters sd st hagree
    cases hfind : findMethodByName sd verb with
    | none => simp [callMethodFinish, hfind]
    | some methodDesc =>
      simp only [callMethodFinish, hfind]
      rw [hagree]

/-- A transport whose single attempt expires at the deadline, as gRPC
reports it. -/
def expiringTransport : Transport :=
  fun _ _ _ =>
    .error "rpc error: code = DeadlineExceeded desc = context deadline exceeded"

/-- Witness: an invocation whose attempt expires surfaces `RPCCallFailed`
with the cancellation cause as detail. -/
theorem invocation_timeout_witness :
    callMethodFinish expiringTransport 0 "list" [] sampleSchema ⟨[]⟩ =
      ⟨.error ⟨.rpcCallFailed,
        "rpc error: code = DeadlineExceeded desc = context deadline exceeded"⟩,
       ⟨[]⟩⟩ :=
  invocation_timeout_and_error_mapping.2.1 expiringTransport 0 "list" []
    sampleSchema ⟨[]⟩
    { name := "list", inputFields := [countField],
      inputTypeName := "spaceone.api.identity.v1.UserQuery" }
    "rpc error: code = DeadlineExceeded desc = context deadline exceeded"
    (by decide) rfl

/-! ## C1 — resolution of non-reserved resources ignores the stored
identifier -/

/-- An operation-group for `inventory` advertised only under the aliased
`inventory_v2` package name. -/
def aliasSchema : ServiceSchema :=
  { fullName := "spaceone.api.inventory_v2.v1.Server"
    methods := [{ name := "list", inputFields := [],
                  inputTypeName := "spaceone.api.inventory_v2.v1.ServerQuery" }] }

/-- A backend registry for the aliased-discovery scenario. -/
def aliasRegistry : Registry :=
  { advertised := ["spaceone.api.inventory_v2.v1.Server"]
    schemas := [aliasSchema] }

/-- Discovery environment reaching `aliasRegistry` for `inventory`. -/
def aliasEnv : DiscoveryEnv :=
  fun n => if n = "inventory" then some aliasRegistry else none

/-- A transport that would answer successfully, were it ever reached. -/
def okTransport : Transport := fun _ _ _ => .ok .nullV

/-- **C1 (code bug).**  Discovery stores the discovered full operation-group
identifier `spaceone.api.inventory_v2.v1.Server` in the cached
`ResourceInfo.serviceName` — the field the source documents as "Full service
name for gRPC calls" — yet `CallMethod` never reads it: for a non-reserved
resource it re-resolves the name rebuilt from `ServiceNamePattern` out of
the *requested* service name and the fixed `v1` segment.  On the alias
scenario the rebuilt name resolves to nothing while the stored identifier
resolves to the live schema, so the call fails where the claimed (and
documented) behavior would succeed. -/
theorem resolve_ignores_stored_identifier :
    (lookupKey "Server" (discoverService aliasRegistry "inventory" 0).resources).map
        ResourceInfo.serviceName = some "spaceone.api.inventory_v2.v1.Server" ∧
    serviceNamePattern "inventory" "Server" = "spaceone.api.inventory.v1.Server" ∧
    resolveService aliasRegistry "spaceone.api.inventory.v1.Server" = none ∧
    resolveService aliasRegistry "spaceone.api.inventory_v2.v1.Server" =
      some aliasSchema ∧
    (callMethod aliasRegistry aliasEnv okTransport ⟨[]⟩ 0
        "inventory" "Server" "list" []).result =
      .error ⟨.serviceDescriptorFailed,
        "failed to resolve spaceone.api.inventory.v1.Server"⟩ :=
  ⟨by decide, by decide, by decide, by decide, by decide⟩

end SpacectlWeb
